import Mathlib

/-!
Shallow embedding of the WhatsApp-archive import backend
(`backend/app/services/parser.py`, `importer.py`, `storage.py`,
`backend/app/models/participant.py`) and proofs about it.

Python strings are embedded as `List Char`; `bytes` as `List Nat`;
fallible Python code (raising) as `Option`/`Except`-returning functions.
-/

namespace WhatsappArchive

/-! ### Python string primitives -/

/-- Characters for which Python's `str.isspace()` / bare `str.strip()` is true
(ASCII whitespace, file separators, and Unicode space characters). -/
def pyIsSpace (c : Char) : Bool :=
  c == ' ' || c == '\t' || c == '\n' || c == '\x0d' || c == '\x0b' || c == '\x0c' ||
  c == '\x1c' || c == '\x1d' || c == '\x1e' || c == '\x1f' ||
  c == '\u0085' || c == '\u00A0' || c == '\u1680' ||
  ('\u2000' ≤ c && c ≤ '\u200A') ||
  c == '\u2028' || c == '\u2029' || c == '\u202F' || c == '\u205F' || c == '\u3000'

/-- Drop trailing characters satisfying `p`. -/
def dropRightWhile (p : Char → Bool) (l : List Char) : List Char :=
  (l.reverse.dropWhile p).reverse

/-- Python `str.strip()` (no argument): strip whitespace from both ends. -/
def pyStrip (l : List Char) : List Char :=
  dropRightWhile pyIsSpace (l.dropWhile pyIsSpace)

/-- Python `str.strip("[]")`: strip `[` and `]` characters from both ends. -/
def stripBrackets (l : List Char) : List Char :=
  let p := fun c => c == '[' || c == ']'
  dropRightWhile p (l.dropWhile p)

/-- `UNICODE_STRIP_CHARS` from `parser.py`: invisible formatting characters. -/
def unicodeStripChars : List Char :=
  ['\u200E', '\u200F', '\u202A', '\u202B', '\u202C', '\u202D', '\u202E',
   '\u2066', '\u2067', '\u2068', '\u2069', '\uFEFF']

/-- `clean_unicode` from `parser.py`: remove every occurrence of each
invisible formatting character (a sequence of single-character deletions,
which amounts to filtering those characters out). -/
def clean_unicode (l : List Char) : List Char :=
  l.filter (fun c => !(unicodeStripChars.contains c))

/-- Python `content.split("\n")` (always returns at least one segment). -/
def splitOnNl : List Char → List (List Char)
  | [] => [[]]
  | '\n' :: rest => [] :: splitOnNl rest
  | c :: rest =>
    match splitOnNl rest with
    | g :: gs => (c :: g) :: gs
    | [] => [[c]]

/-- ASCII lower-casing of one character (Python `str.lower()`; the system
indicators and media signatures matched case-insensitively are all ASCII). -/
def pyLower (c : Char) : Char := c.toLower

/-- Case-insensitive prefix test. -/
def isPrefixCI (needle hay : List Char) : Bool :=
  match needle, hay with
  | [], _ => true
  | _ :: _, [] => false
  | n :: ns, h :: hs => (pyLower n == pyLower h) && isPrefixCI ns hs

/-- Case-insensitive substring test (`needle.lower() in hay.lower()`). -/
def containsCI (needle : List Char) : List Char → Bool
  | [] => isPrefixCI needle []
  | h :: hs => isPrefixCI needle (h :: hs) || containsCI needle hs

/-- Case-sensitive prefix test. -/
def isPrefixCS (needle hay : List Char) : Bool :=
  match needle, hay with
  | [], _ => true
  | _ :: _, [] => false
  | n :: ns, h :: hs => (n == h) && isPrefixCS ns hs

/-- Python `str.endswith` (case sensitive). -/
def endsWithCS (suffix l : List Char) : Bool :=
  isPrefixCS suffix.reverse l.reverse

/-- Case-insensitive suffix test. -/
def endsWithCI (suffix l : List Char) : Bool :=
  isPrefixCI suffix.reverse l.reverse

/-! ### Timestamps (`datetime`) -/

/-- A parsed timestamp: the fields of a Python `datetime`
(timezone-naive, microseconds unused by the parser). -/
structure PyDateTime where
  year : Nat
  month : Nat
  day : Nat
  hour : Nat
  minute : Nat
  second : Nat
  deriving DecidableEq, Repr, Inhabited

/-- Gregorian leap-year rule used by `datetime`. -/
def isLeapYear (y : Nat) : Bool :=
  (y % 4 == 0 && y % 100 != 0) || y % 400 == 0

/-- Number of days in a month (as validated by the `datetime` constructor). -/
def daysInMonth (y m : Nat) : Nat :=
  if m == 2 then (if isLeapYear y then 29 else 28)
  else if m == 4 || m == 6 || m == 9 || m == 11 then 30
  else 31

/-- The `datetime(year, month, day, hour, minute, second)` constructor:
`some` iff all fields are in range, else `none` (Python raises `ValueError`). -/
def mkDatetime (y m d h mi s : Nat) : Option PyDateTime :=
  if 1 ≤ y && y ≤ 9999 && 1 ≤ m && m ≤ 12 && 1 ≤ d && d ≤ daysInMonth y m &&
     h ≤ 23 && mi ≤ 59 && s ≤ 59 then
    some ⟨y, m, d, h, mi, s⟩
  else none

def digitVal (c : Char) : Nat := c.toNat - 48

/-- One `strptime` numeric directive that accepts one or two digits: a
two-digit match is taken when its value satisfies `two`, otherwise a
single digit satisfying `one` is taken (mirroring CPython's `_strptime`
alternation, e.g. `%d` ↦ `(3[01]|[12]\d|0[1-9]|[1-9])`). -/
def num2or1 (two one : Nat → Bool) : List Char → Option (Nat × List Char)
  | c1 :: c2 :: rest =>
    if c1.isDigit && c2.isDigit then
      let v := 10 * digitVal c1 + digitVal c2
      if two v then some (v, rest)
      else if one (digitVal c1) then some (digitVal c1, c2 :: rest)
      else none
    else if c1.isDigit && one (digitVal c1) then some (digitVal c1, c2 :: rest)
    else none
  | [c1] => if c1.isDigit && one (digitVal c1) then some (digitVal c1, []) else none
  | [] => none

/-- `%d`: day 1–31 (two digits `01`–`31`, or one digit `1`–`9`). -/
def pDay : List Char → Option (Nat × List Char) :=
  num2or1 (fun v => 1 ≤ v && v ≤ 31) (fun v => 1 ≤ v)

/-- `%m`: month. -/
def pMonth : List Char → Option (Nat × List Char) :=
  num2or1 (fun v => 1 ≤ v && v ≤ 12) (fun v => 1 ≤ v)

/-- `%H`: 24-hour hour. -/
def pHour24 : List Char → Option (Nat × List Char) :=
  num2or1 (fun v => v ≤ 23) (fun _ => true)

/-- `%I`: 12-hour hour. -/
def pHour12 : List Char → Option (Nat × List Char) :=
  num2or1 (fun v => 1 ≤ v && v ≤ 12) (fun v => 1 ≤ v)

/-- `%M`: minute. -/
def pMinute : List Char → Option (Nat × List Char) :=
  num2or1 (fun v => v ≤ 59) (fun _ => true)

/-- `%S`: second (the `strptime` regex permits 00–61). -/
def pSecond : List Char → Option (Nat × List Char) :=
  num2or1 (fun v => v ≤ 61) (fun _ => true)

/-- `%y`: exactly two digits, mapped to 2000–2068 / 1969–1999. -/
def pYear2 : List Char → Option (Nat × List Char)
  | c1 :: c2 :: rest =>
    if c1.isDigit && c2.isDigit then
      let v := 10 * digitVal c1 + digitVal c2
      some (if v ≤ 68 then 2000 + v else 1900 + v, rest)
    else none
  | _ => none

/-- `%Y`: exactly four digits. -/
def pYear4 : List Char → Option (Nat × List Char)
  | c1 :: c2 :: c3 :: c4 :: rest =>
    if c1.isDigit && c2.isDigit && c3.isDigit && c4.isDigit then
      some (1000 * digitVal c1 + 100 * digitVal c2 + 10 * digitVal c3 + digitVal c4, rest)
    else none
  | _ => none

/-- A literal character of the format string. -/
def pLit (c : Char) : List Char → Option (List Char)
  | x :: rest => if x == c then some rest else none
  | [] => none

/-- Whitespace in a `strptime` format string matches `\s+`. -/
def pWs1 : List Char → Option (List Char)
  | x :: rest => if pyIsSpace x then some (rest.dropWhile pyIsSpace) else none
  | [] => none

/-- `%p`: `AM`/`PM`, case-insensitively; returns `true` for PM. -/
def pAmPm : List Char → Option (Bool × List Char)
  | c1 :: c2 :: rest =>
    if (c1 == 'A' || c1 == 'a') && (c2 == 'M' || c2 == 'm') then some (false, rest)
    else if (c1 == 'P' || c1 == 'p') && (c2 == 'M' || c2 == 'm') then some (true, rest)
    else none
  | _ => none

/-- `_strptime`'s AM/PM adjustment of a `%I` hour. -/
def applyAmPm (pm : Bool) (h12 : Nat) : Nat :=
  if pm then (if h12 == 12 then 12 else h12 + 12)
  else (if h12 == 12 then 0 else h12)

/-- `strptime` with format `"%d<sep>%m<sep>YEAR, %H:%M"`, optionally with
`":%S"`, requiring the whole string to be consumed. Instantiated below for
each of the six day-first formats tried by `parse_timestamp`. -/
def strptimeDayFirst (sep : Char) (pYear : List Char → Option (Nat × List Char))
    (withSec : Bool) (s : List Char) : Option PyDateTime := do
  let (d, s) ← pDay s
  let s ← pLit sep s
  let (m, s) ← pMonth s
  let s ← pLit sep s
  let (y, s) ← pYear s
  let s ← pLit ',' s
  let s ← pWs1 s
  let (h, s) ← pHour24 s
  let s ← pLit ':' s
  let (mi, s) ← pMinute s
  if withSec then
    let s ← pLit ':' s
    let (sec, s) ← pSecond s
    if s.isEmpty then mkDatetime y m d h mi sec else none
  else
    if s.isEmpty then mkDatetime y m d h mi 0 else none

/-- `strptime` with format `"%m/%d/%y, %I:%M[:%S] %p"` (US 12-hour). -/
def strptimeUS (withSec : Bool) (s : List Char) : Option PyDateTime := do
  let (m, s) ← pMonth s
  let s ← pLit '/' s
  let (d, s) ← pDay s
  let s ← pLit '/' s
  let (y, s) ← pYear2 s
  let s ← pLit ',' s
  let s ← pWs1 s
  let (h12, s) ← pHour12 s
  let s ← pLit ':' s
  let (mi, s) ← pMinute s
  if withSec then
    let s ← pLit ':' s
    let (sec, s) ← pSecond s
    let s ← pWs1 s
    let (pm, s) ← pAmPm s
    if s.isEmpty then mkDatetime y m d (applyAmPm pm h12) mi sec else none
  else
    let s ← pWs1 s
    let (pm, s) ← pAmPm s
    if s.isEmpty then mkDatetime y m d (applyAmPm pm h12) mi 0 else none

/-- The eight formats tried in order by `WhatsAppParser.parse_timestamp`. -/
def timestampFormats : List (List Char → Option PyDateTime) :=
  [strptimeDayFirst '.' pYear4 true,   -- "%d.%m.%Y, %H:%M:%S"
   strptimeDayFirst '.' pYear4 false,  -- "%d.%m.%Y, %H:%M"
   strptimeDayFirst '/' pYear4 true,   -- "%d/%m/%Y, %H:%M:%S"
   strptimeDayFirst '/' pYear4 false,  -- "%d/%m/%Y, %H:%M"
   strptimeUS true,                    -- "%m/%d/%y, %I:%M:%S %p"
   strptimeUS false,                   -- "%m/%d/%y, %I:%M %p"
   strptimeDayFirst '.' pYear2 true,   -- "%d.%m.%y, %H:%M:%S"
   strptimeDayFirst '.' pYear2 false]  -- "%d.%m.%y, %H:%M"

/-- `\d{1,2}` of the permissive fallback regex: candidate matches in
backtracking priority order (two digits first). -/
def d12Choices : List Char → List (Nat × List Char)
  | c1 :: c2 :: rest =>
    if c1.isDigit && c2.isDigit then
      [(10 * digitVal c1 + digitVal c2, rest), (digitVal c1, c2 :: rest)]
    else if c1.isDigit then [(digitVal c1, c2 :: rest)]
    else []
  | [c1] => if c1.isDigit then [(digitVal c1, [])] else []
  | [] => []

/-- `\d{2}` of the fallback regex. -/
def d2Exact : List Char → Option (Nat × List Char)
  | c1 :: c2 :: rest =>
    if c1.isDigit && c2.isDigit then some (10 * digitVal c1 + digitVal c2, rest)
    else none
  | _ => none

/-- After the hour of the fallback regex: `:(\d{2})(?::(\d{2}))?` as a prefix
match (trailing input is ignored; a missing/short seconds group yields 0). -/
def fbTail (s : List Char) : Option (Nat × Nat) := do
  let s ← pLit ':' s
  let (mi, s) ← d2Exact s
  match pLit ':' s with
  | some s' =>
    match d2Exact s' with
    | some (sec, _) => some (mi, sec)
    | none => some (mi, 0)
  | none => some (mi, 0)

/-- The permissive fallback of `parse_timestamp`:
`re.match(r"(\d{1,2})\.(\d{1,2})\.(\d{4}),\s*(\d{1,2}):(\d{2})(?::(\d{2}))?")`
followed by the `datetime` constructor (whose `ValueError` is caught as
`none`). The regex match is a prefix match with backtracking over the three
`\d{1,2}` groups; the first successful match wins. -/
def fallbackParse (s : List Char) : Option PyDateTime :=
  let cands :=
    (d12Choices s).flatMap (fun (d, s) =>
      match pLit '.' s with
      | none => []
      | some s =>
        (d12Choices s).flatMap (fun (m, s) =>
          match pLit '.' s with
          | none => []
          | some s =>
            match pYear4 s with
            | none => []
            | some (y, s) =>
              match pLit ',' s with
              | none => []
              | some s =>
                let s := s.dropWhile pyIsSpace
                (d12Choices s).flatMap (fun (h, s) =>
                  match fbTail s with
                  | none => []
                  | some (mi, sec) => [(d, m, y, h, mi, sec)])))
  match cands.head? with
  | some (d, m, y, h, mi, sec) => mkDatetime y m d h mi sec
  | none => none

/-- `WhatsAppParser.parse_timestamp`: clean invisible characters, strip
brackets and whitespace, try the eight `strptime` formats in order, then
the permissive fallback; `none` when nothing matches. -/
def parse_timestamp (ts : List Char) : Option PyDateTime :=
  let s := pyStrip (stripBrackets (clean_unicode ts))
  match timestampFormats.findSome? (fun f => f s) with
  | some dt => some dt
  | none => fallbackParse s

/-! ### Chat line parser (`WhatsAppParser`) -/

/-- `ParsedMessage` dataclass from `parser.py`. -/
structure ParsedMessage where
  timestamp : PyDateTime
  sender : List Char
  content : List Char
  message_type : List Char := "text".data
  has_media : Bool := false
  media_filename : Option (List Char) := none
  is_system : Bool := false
  deriving DecidableEq, Repr, Inhabited

/-- Search for `<attached:` (case per `ci`) such that a `>` follows; yield the
segment strictly between `:` and the first following `>`, trying successive
start positions, with `segOk` the condition on the segment imposed by the
rest of the pattern. Implements `re.search` for the
`<attached:\s*[^>]*…>` signatures (`\s*` is subsumed by `[^>]*`, since
whitespace is not `>`). -/
def attachedSearch (ci : Bool) (segOk : List Char → Bool) : List Char → Option (List Char)
  | [] => none
  | l@(_ :: rest) =>
    let pref := if ci then isPrefixCI "<attached:".data l else isPrefixCS "<attached:".data l
    if pref then
      let after := l.drop 10
      let seg := after.takeWhile (fun c => c != '>')
      if seg.length < after.length && segOk seg then some seg
      else attachedSearch ci segOk rest
    else attachedSearch ci segOk rest

/-- `re.search(pat, s, IGNORECASE)` for the `<attached:\s*[^>]*SUF>`
signatures: the segment before the closing `>` must end with `SUF`. -/
def attachedSuffix (suf : List Char) (s : List Char) : Bool :=
  (attachedSearch true (endsWithCI suf) s).isSome

/-- `re.search(pat, s, IGNORECASE)` for `<attached:\s*[^>]*WORD[^>]*>`:
the segment before the closing `>` must contain `WORD`. -/
def attachedContains (word : List Char) (s : List Char) : Bool :=
  (attachedSearch true (containsCI word) s).isSome

/-- `re.search` (IGNORECASE) for `PRE-\d+-WA\d+` codes (`IMG`/`VID`/`AUD`):
prefix, one or more digits, `-WA`, one or more digits. -/
def waCodeSearch (pre : List Char) : List Char → Bool
  | [] => false
  | l@(_ :: rest) =>
    (if isPrefixCI pre l then
      let after := l.drop pre.length
      let ds := after.takeWhile Char.isDigit
      let after2 := after.drop ds.length
      !ds.isEmpty && isPrefixCI "-wa".data after2 &&
        !((after2.drop 3).takeWhile Char.isDigit).isEmpty
    else false) || waCodeSearch pre rest

/-- `re.search` (IGNORECASE) for `PTT-\d+`. -/
def pttSearch : List Char → Bool
  | [] => false
  | l@(_ :: rest) =>
    (isPrefixCI "ptt-".data l && !((l.drop 4).takeWhile Char.isDigit).isEmpty) ||
      pttSearch rest

/-- One media signature from `WhatsAppParser.MEDIA_PATTERNS`. -/
inductive MediaPat where
  | attSuf (suf : List Char)     -- `<attached:\s*[^>]*SUF>`
  | attWord (word : List Char)   -- `<attached:\s*[^>]*WORD[^>]*>`
  | lit (w : List Char)          -- plain substring, case-insensitive
  | waCode (pre : List Char)     -- `PRE-\d+-WA\d+`
  | ptt                          -- `PTT-\d+`

def MediaPat.matches (s : List Char) : MediaPat → Bool
  | .attSuf suf => attachedSuffix suf s
  | .attWord w => attachedContains w s
  | .lit w => containsCI w s
  | .waCode p => waCodeSearch p s
  | .ptt => pttSearch s

/-- `MEDIA_PATTERNS`, in dict insertion order with each pattern list in
source order. -/
def mediaPatterns : List (List Char × List MediaPat) :=
  [("image".data,
    [.attWord "PHOTO".data, .attSuf ".jpg".data, .attSuf ".jpeg".data,
     .attSuf ".png".data, .attSuf ".webp".data, .lit "image omitted".data,
     .lit "<Medien ausgeschlossen>".data, .waCode "IMG-".data]),
   ("video".data,
    [.attWord "VIDEO".data, .attSuf ".mp4".data, .attSuf ".mov".data,
     .attSuf ".3gp".data, .lit "video omitted".data, .waCode "VID-".data]),
   ("audio".data,
    [.attWord "AUDIO".data, .attSuf ".opus".data, .attSuf ".mp3".data,
     .attSuf ".m4a".data, .attSuf ".ogg".data, .lit "audio omitted".data,
     .waCode "AUD-".data, .ptt]),
   ("sticker".data,
    [.lit "sticker omitted".data, .lit "<Medien ausgeschlossen>".data,
     .attSuf ".webp".data]),
   ("document".data,
    [.attSuf ".pdf".data, .attSuf ".doc".data, .attSuf ".xlsx".data,
     .lit "document omitted".data]),
   ("gif".data, [.lit "GIF omitted".data, .attSuf ".gif".data]),
   ("contact".data, [.lit "contact card omitted".data, .lit ".vcf".data]),
   ("location".data, [.lit "location:".data])]

/-- Filename extraction `re.search(r"<attached:\s*([^>]+)>", clean_content)`
(case-sensitive, unlike the media signatures), then `.strip()` of the group.
The greedy `\s*`/`([^>]+)` split washes out under the final `.strip()`, so
the result is the stripped segment (which must be nonempty). -/
def extractAttachedFilename (s : List Char) : Option (List Char) :=
  (attachedSearch false (fun seg => !seg.isEmpty) s).map pyStrip

/-- `WhatsAppParser.detect_media_type`: first media kind with a matching
signature wins; on a match also try to extract the attachment filename. -/
def detect_media_type (content : List Char) : List Char × Bool × Option (List Char) :=
  let cc := clean_unicode content
  match mediaPatterns.find? (fun tp => tp.2.any (MediaPat.matches cc)) with
  | some tp => (tp.1, true, extractAttachedFilename cc)
  | none => ("text".data, false, none)

/-- `SYSTEM_INDICATORS` from `parser.py`. -/
def systemIndicators : List (List Char) :=
  ["Messages and calls are end-to-end encrypted".data,
   "created group".data, "added".data, "removed".data, "left".data,
   "changed the subject".data, "changed this group's icon".data,
   "changed the group description".data, "You're now an admin".data,
   "security code changed".data, "Missed voice call".data,
   "Missed video call".data]

/-- `WhatsAppParser.is_system_message`: some indicator occurs in the content,
case-insensitively (the sender argument is unused by the source). -/
def is_system_message (content : List Char) (_sender : List Char) : Bool :=
  systemIndicators.any (fun ind => containsCI ind content)

/-- The bracket part `^\[([^\]]+)\]` shared by `MESSAGE_PATTERN` and
`SYSTEM_PATTERN`: the line starts with `[`, there is at least one non-`]`
character before the first `]`. Returns (timestamp group, rest after `]`). -/
def bracketSplit : List Char → Option (List Char × List Char)
  | '[' :: rest =>
    let ts := rest.takeWhile (fun c => c != ']')
    if ts.length < rest.length && !ts.isEmpty then
      some (ts, rest.drop (ts.length + 1))
    else none
  | _ => none

/-- `MESSAGE_PATTERN = ^\[([^\]]+)\]\s*([^:]+):\s*(.*)$` followed by the
source's `.strip()` of the sender and content groups. The greedy
`\s*`/`([^:]+)` boundary washes out under `.strip()`, so the sender is the
stripped segment between `]` and the first `:` (which must be nonempty),
and the content is the stripped remainder after that `:`. -/
def messageMatch (l : List Char) : Option (List Char × List Char × List Char) :=
  match bracketSplit l with
  | none => none
  | some (ts, rest) =>
    let seg := rest.takeWhile (fun c => c != ':')
    if seg.length < rest.length && !seg.isEmpty then
      some (ts, pyStrip seg, pyStrip (rest.drop (seg.length + 1)))
    else none

/-- `SYSTEM_PATTERN = ^\[([^\]]+)\]\s*(.+)$` followed by `.strip()` of the
content group: the rest after `]` must be nonempty. -/
def systemMatch (l : List Char) : Option (List Char × List Char) :=
  match bracketSplit l with
  | none => none
  | some (ts, rest) =>
    if rest.isEmpty then none else some (ts, pyStrip rest)

/-- `WhatsAppParser.parse_line`. -/
def parse_line (line : List Char) : Option ParsedMessage :=
  let l := pyStrip (clean_unicode line)
  if l.isEmpty then none
  else
    match messageMatch l with
    | some (tsStr, sender, content) =>
      match parse_timestamp tsStr with
      | none => none
      | some ts =>
        let (mt, hasMedia, mediaFilename) := detect_media_type content
        let sys := is_system_message content sender
        some { timestamp := ts, sender := sender, content := content,
               message_type := if sys then "system".data else mt,
               has_media := hasMedia, media_filename := mediaFilename,
               is_system := sys }
    | none =>
      match systemMatch l with
      | some (tsStr, content) =>
        match parse_timestamp tsStr with
        | some ts =>
          some { timestamp := ts, sender := "System".data, content := content,
                 message_type := "system".data, is_system := true }
        | none => none
      | none => none

/-! ### Message stream builder (`parse_content` / `parse_file` / `parse_stream`) -/

/-- Builder state: messages already yielded, and the current in-progress one. -/
abbrev BuilderState := List ParsedMessage × Option ParsedMessage

/-- The continuation text appended by `parse_content`/`parse_file`:
`clean_unicode(line).strip()`. -/
def contText (line : List Char) : List Char := pyStrip (clean_unicode line)

/-- One loop iteration of `parse_content`/`parse_file`: a recognized start
yields the previous current message; otherwise a non-blank line whose
cleaned text is nonempty is appended to the current message's content. -/
def feedLine (st : BuilderState) (line : List Char) : BuilderState :=
  match parse_line line with
  | some pm => (st.1 ++ st.2.toList, some pm)
  | none =>
    match st.2 with
    | some cur =>
      if !(pyStrip line).isEmpty && !(contText line).isEmpty then
        (st.1, some { cur with content := cur.content ++ '\n' :: contText line })
      else st
    | none => st

/-- End of input: yield the current message if present. -/
def finishBuilder (st : BuilderState) : List ParsedMessage :=
  st.1 ++ st.2.toList

/-- The line-fold shared by `parse_content` and `parse_file`. -/
def parseLines (lines : List (List Char)) : List ParsedMessage :=
  finishBuilder (lines.foldl feedLine ([], none))

/-- `WhatsAppParser.parse_content`: fold over `content.split("\n")`. -/
def parse_content (content : List Char) : List ParsedMessage :=
  parseLines (splitOnNl content)

/-- The lines a Python text file of content `s` iterates over: each line
keeps its trailing newline; a trailing empty segment yields no line. -/
def fileLines (s : List Char) : List (List Char) :=
  let rec joinLines : List (List Char) → List (List Char)
    | [] => []
    | [last] => if last.isEmpty then [] else [last]
    | l :: rest => (l ++ ['\n']) :: joinLines rest
  joinLines (splitOnNl s)

/-- `WhatsAppParser.parse_file`, on a file whose text is `s`: the same fold
as `parse_content` over the file's line iteration. -/
def parse_file (s : List Char) : List ParsedMessage :=
  parseLines (fileLines s)

/-- One line step of `parse_stream`: unlike `feedLine`, a continuation line
is appended as `line.strip()` without `clean_unicode`, and without the
inner nonempty check. -/
def feedLineStream (st : BuilderState) (line : List Char) : BuilderState :=
  match parse_line line with
  | some pm => (st.1 ++ st.2.toList, some pm)
  | none =>
    match st.2 with
    | some cur =>
      if !(pyStrip line).isEmpty then
        (st.1, some { cur with content := cur.content ++ '\n' :: pyStrip line })
      else st
    | none => st

/-- One chunk of `parse_stream`: append to the buffer, split on `\n`, keep
the final (possibly incomplete) segment as the new buffer, and feed the
complete lines. -/
def streamChunk (st : BuilderState × List Char) (chunk : List Char) :
    BuilderState × List Char :=
  let buf := st.2 ++ chunk
  let ls := splitOnNl buf
  (ls.dropLast.foldl feedLineStream st.1, ls.getLast? |>.getD [])

/-- `WhatsAppParser.parse_stream`, with chunks modelled after UTF-8
decoding. The remaining buffer at end of stream is fed only through
`parse_line`; when it is not a message start it is discarded. -/
def parse_stream (chunks : List (List Char)) : List ParsedMessage :=
  let (st, buf) := chunks.foldl streamChunk (([], none), [])
  let st :=
    if !buf.isEmpty then
      match parse_line buf with
      | some pm => (st.1 ++ st.2.toList, some pm)
      | none => st
    else st
  finishBuilder st

/-! ### Participants (`models/participant.py`, `ImporterService._create_conversation`) -/

/-- `PARTICIPANT_COLORS` from `models/participant.py`. -/
def participantColors : List (List Char) :=
  ["#25D366".data, "#34B7F1".data, "#9C27B0".data, "#FF5722".data,
   "#00BCD4".data, "#E91E63".data, "#3F51B5".data, "#FF9800".data,
   "#009688".data, "#795548".data, "#607D8B".data, "#8BC34A".data]

/-- `Participant.get_color(index)`: `PARTICIPANT_COLORS[index % len(...)]`. -/
def get_color (index : Nat) : List Char :=
  participantColors.getD (index % participantColors.length) []

/-- The sender names of the non-system messages (the generator inside
`set(m.sender for m in messages if not m.is_system)`, before
deduplication). -/
def senderList (messages : List ParsedMessage) : List (List Char) :=
  (messages.filter (fun m => !m.is_system)).map (·.sender)

/-- `sorted(senders)` where `senders` is the set of distinct non-system
sender names: the lexicographically sorted duplicate-free list. -/
def sortedSenders (messages : List ParsedMessage) : List (List Char) :=
  List.insertionSort (· ≤ ·) (senderList messages).dedup

/-- The participant rows created by `ImporterService._create_conversation`:
`(name, color, message_count)` for each sender in sorted order, the color
taken by enumeration index. -/
def createParticipants (messages : List ParsedMessage) :
    List (List Char × List Char × Nat) :=
  (sortedSenders messages).enum.map
    (fun is => (is.2, get_color is.1,
      (messages.filter (fun m => m.sender = is.2)).length))

/-- The derived name-to-color mapping. -/
def colorAssignment (messages : List ParsedMessage) : List (List Char × List Char) :=
  (createParticipants messages).map (fun p => (p.1, p.2.1))

/-! ### Storage (`StorageService`), chunk assembly and the upload state machine -/

/-- Stored object contents. -/
abbrev Bytes := List Nat

/-- The per-job chunk objects, keyed by chunk number (modelling the object
keys `{object_name}.chunk.{n:06d}`); an association list where `storePut`
overwrites. -/
abbrev ChunkStore := List (Nat × Bytes)

def storeErase (st : ChunkStore) (k : Nat) : ChunkStore :=
  st.filter (fun e => e.1 ≠ k)

def storePut (st : ChunkStore) (k : Nat) (v : Bytes) : ChunkStore :=
  (k, v) :: storeErase st k

def storeGet (st : ChunkStore) (k : Nat) : Option Bytes :=
  (st.find? (fun e => e.1 = k)).map (·.2)

/-- The loop of `StorageService.assemble_chunks`, starting at chunk `i` with
`remaining` chunks to go: each chunk is downloaded (a missing chunk raises
`S3Error`, modelled as `none`, aborting with the store as mutated so far)
and then deleted immediately after reading. -/
def assembleLoop : (i remaining : Nat) → Bytes → ChunkStore → Option Bytes × ChunkStore
  | _, 0, acc, st => (some acc, st)
  | i, remaining + 1, acc, st =>
    match storeGet st i with
    | none => (none, st)
    | some d => assembleLoop (i + 1) remaining (acc ++ d) (storeErase st i)

/-- `StorageService.assemble_chunks`: concatenate chunks `0 .. total-1`,
deleting each chunk right after reading it, then upload the assembled
object (returned as the first component; `none` means the S3 download of
some chunk raised and no assembled object was produced). -/
def assemble_chunks (st : ChunkStore) (total_chunks : Nat) : Option Bytes × ChunkStore :=
  assembleLoop 0 total_chunks [] st

/-- The `ImportJob` fields driven by `ImporterService.upload_chunk`. -/
structure JobState where
  total_chunks : Nat
  uploaded_chunks : Nat
  status : List Char
  temp_storage_key : Bool := false
  deriving DecidableEq, Repr

/-- `ImporterService.upload_chunk` for one job: store the chunk, set
`uploaded_chunks = chunk_number + 1` (committed), and when
`uploaded_chunks >= total_chunks` run `assemble_chunks`; on success set
`temp_storage_key` and `status = "pending"`. A failed assembly propagates
as an exception (third component `true`) after the `uploaded_chunks`
commit, leaving the status unchanged. -/
def upload_chunk (job : JobState) (st : ChunkStore) (chunk_number : Nat)
    (chunk_data : Bytes) : JobState × ChunkStore × Bool :=
  let st := storePut st chunk_number chunk_data
  let job := { job with uploaded_chunks := chunk_number + 1 }
  if job.uploaded_chunks ≥ job.total_chunks then
    match assemble_chunks st job.total_chunks with
    | (some _, st) =>
      ({ job with temp_storage_key := true, status := "pending".data }, st, false)
    | (none, st) => (job, st, true)
  else (job, st, false)

/-- A fresh job as created by `create_import_job` (`status="uploading"`),
followed by a sequence of `upload_chunk` calls (exceptions from failed
assemblies are swallowed by the caller, who may retry). -/
def uploadRun (total_chunks : Nat) (chunks : List (Nat × Bytes)) :
    JobState × ChunkStore :=
  chunks.foldl
    (fun (acc : JobState × ChunkStore) c =>
      let r := upload_chunk acc.1 acc.2 c.1 c.2
      (r.1, r.2.1))
    ({ total_chunks := total_chunks, uploaded_chunks := 0,
       status := "uploading".data }, [])

/-! ### Archive extraction (`ImporterService._process_zip_import`) -/

/-- The member-classification loop of `_process_zip_import`: a `.txt`,
non-`__MACOSX` member becomes the chat file (overwriting any previous
one), any other non-directory, non-`__MACOSX` member is appended to the
media candidates. -/
def zipClassify : Option (List Char) → List (List Char) → List (List Char) →
    Option (List Char) × List (List Char)
  | chat, media, [] => (chat, media)
  | chat, media, name :: rest =>
    if endsWithCS ".txt".data name && !isPrefixCS "__MACOSX".data name then
      zipClassify (some name) media rest
    else if !endsWithCS "/".data name && !isPrefixCS "__MACOSX".data name then
      zipClassify chat (media ++ [name]) rest
    else
      zipClassify chat media rest

/-- `_process_zip_import`'s transcript selection: classify all members, and
raise `ValueError` when no chat file was found. -/
def processZipSelect (names : List (List Char)) :
    Except (List Char) (List Char × List (List Char)) :=
  match zipClassify none [] names with
  | (none, _) => .error "No chat file (.txt) found in ZIP".data
  | (some chat, media) => .ok (chat, media)

/-! ### Media import (`ImporterService._import_media`) -/

/-- `os.path.basename`: the part after the last `/`. -/
def basename (p : List Char) : List Char :=
  ((p.reverse.takeWhile (fun c => c != '/'))).reverse

/-- The extension as computed by `os.path.splitext(filename)[1].lower()`:
from the last dot of the basename, unless all leading characters of the
basename are dots. -/
def extOf (filename : List Char) : List Char :=
  let base := basename filename
  let noLead := base.dropWhile (fun c => c == '.')
  let afterDot := noLead.reverse.takeWhile (fun c => c != '.')
  if afterDot.length < noLead.length then
    ('.' :: afterDot.reverse).map pyLower
  else []

/-- `ImporterService._get_media_type`. -/
def get_media_type (ext : List Char) : List Char :=
  let member (l : List String) := l.any (fun s => s.data = ext)
  if member [".jpg", ".jpeg", ".png", ".gif", ".webp"] then "image".data
  else if member [".mp4", ".mov", ".avi", ".webm", ".3gp"] then "video".data
  else if member [".mp3", ".ogg", ".opus", ".m4a", ".wav"] then "audio".data
  else "document".data

/-- `ImporterService._get_mime_type`. -/
def get_mime_type (ext : List Char) : List Char :=
  let table : List (String × String) :=
    [(".jpg", "image/jpeg"), (".jpeg", "image/jpeg"), (".png", "image/png"),
     (".gif", "image/gif"), (".webp", "image/webp"), (".mp4", "video/mp4"),
     (".mov", "video/quicktime"), (".avi", "video/x-msvideo"),
     (".webm", "video/webm"), (".3gp", "video/3gpp"), (".mp3", "audio/mpeg"),
     (".ogg", "audio/ogg"), (".opus", "audio/opus"), (".m4a", "audio/mp4"),
     (".wav", "audio/wav"), (".pdf", "application/pdf")]
  match table.find? (fun e => e.1.data = ext) with
  | some e => e.2.data
  | none => "application/octet-stream".data

/-- One media candidate member of the archive: its path, and its bytes when
reading/uploading it succeeds (`none` models the member raising inside the
`try` block, e.g. an unreadable archive member). -/
structure MediaCand where
  path : List Char
  bytes : Option Bytes
  deriving DecidableEq, Repr

/-- A persisted `MediaFile` row. -/
structure MediaRow where
  message_id : Nat
  storage_key : List Char
  original_filename : List Char
  media_type : List Char
  mime_type : List Char
  file_size : Nat
  deriving DecidableEq, Repr

/-- `message_map.get(clean) or message_map.get(raw)` (message ids generated
by the database are nonzero, so Python's `or` is `Option.orElse` here). -/
def mapLookup (m : List (List Char × Nat)) (k : List Char) : Option Nat :=
  (m.find? (fun e => e.1 = k)).map (·.2)

/-- The loop of `ImporterService._import_media` from index `idx` with
current `processed_media` value `processed`: a member that raises is
logged and skipped (leaving `processed` untouched); otherwise the file is
stored, a `MediaFile` row is added when a message matches by filename
(cleaned name first, then raw), and `processed_media` is set to `idx + 1`. -/
def importMediaLoop (convId : Nat) (message_map : List (List Char × Nat)) :
    Nat → Nat → List MediaCand → Nat × List MediaRow
  | _, processed, [] => (processed, [])
  | idx, processed, cand :: rest =>
    match cand.bytes with
    | none => importMediaLoop convId message_map (idx + 1) processed rest
    | some data =>
      let filename := basename cand.path
      let clean_filename := pyStrip (clean_unicode filename)
      let ext := extOf filename
      let media_type := get_media_type ext
      let mime_type := get_mime_type ext
      let storage_key := "conversations/".data ++ (toString convId).data ++
        "/media/".data ++ clean_filename
      let rows :=
        match (mapLookup message_map clean_filename).orElse
            (fun _ => mapLookup message_map filename) with
        | some mid =>
          [{ message_id := mid, storage_key := storage_key,
             original_filename := clean_filename, media_type := media_type,
             mime_type := mime_type, file_size := data.length }]
        | none => []
      let r := importMediaLoop convId message_map (idx + 1) (idx + 1) rest
      (r.1, rows ++ r.2)

/-- `ImporterService._import_media`: final `processed_media` value and the
`MediaFile` rows persisted, starting from `processed_media = 0`. -/
def import_media (convId : Nat) (message_map : List (List Char × Nat))
    (media_files : List MediaCand) : Nat × List MediaRow :=
  importMediaLoop convId message_map 0 0 media_files

/-! ## Theorems for the claims -/

/-- C9: parsing the single line
`"[01.02.2023, 09:16:00] Bob: <attached: IMG-001-WA0001.jpg>"` yields
exactly one `ParsedMessage` with sender `"Bob"`, message type `"image"`,
`has_media = true` and `media_filename = "IMG-001-WA0001.jpg"` extracted
from the `<attached: NAME>` marker. -/
theorem c9_attached_media_line :
    parse_content "[01.02.2023, 09:16:00] Bob: <attached: IMG-001-WA0001.jpg>".data =
      [{ timestamp := ⟨2023, 2, 1, 9, 16, 0⟩, sender := "Bob".data,
         content := "<attached: IMG-001-WA0001.jpg>".data,
         message_type := "image".data, has_media := true,
         media_filename := some "IMG-001-WA0001.jpg".data,
         is_system := false }] := by decide

/-- C1 (code bug): `upload_chunk` sets `uploaded_chunks` to
`chunk_number + 1` instead of counting distinct received indices, and
tests completion as `uploaded_chunks >= total_chunks`. Submitting the
chunks of a `total_chunks = 3` job in the order 2, 0, 1 therefore leaves
the job with `uploaded_chunks = 2` and status `"uploading"` forever, even
though all three distinct chunk indices were received and stored (the
claimed invariant requires `uploaded_chunks = 3` and a transition to
`"pending"`). -/
theorem c1_upload_chunk_last_index_bug :
    (uploadRun 3 [(2, [9]), (0, [7]), (1, [8])]).1.uploaded_chunks = 2 ∧
    (uploadRun 3 [(2, [9]), (0, [7]), (1, [8])]).1.status = "uploading".data ∧
    (storeGet (uploadRun 3 [(2, [9]), (0, [7]), (1, [8])]).2 0).isSome ∧
    (storeGet (uploadRun 3 [(2, [9]), (0, [7]), (1, [8])]).2 1).isSome ∧
    (storeGet (uploadRun 3 [(2, [9]), (0, [7]), (1, [8])]).2 2).isSome := by
  decide

/-- C2 (counterexample): for the one-element media list whose member raises
when read, `_import_media` finishes with `processed_media = 0`, not the
claimed `k = 1` — the `processed_media` update sits inside the `try`
block, so a member that raises is skipped without being counted. -/
theorem c2_processed_media_counterexample :
    (import_media 1 [] [{ path := "a.jpg".data, bytes := none }]).1 = 0 ∧
    (import_media 1 [] [{ path := "a.jpg".data, bytes := none }]).1 ≠ 1 := by
  decide

/-- C2 (amended): when no media member raises, `processed_media` is advanced
after every member — readable members that match no message are still
counted — so `_import_media` ends with `processed_media = k`. -/
theorem c2_processed_media_amended (convId : Nat)
    (message_map : List (List Char × Nat)) (media_files : List MediaCand)
    (h : ∀ c ∈ media_files, c.bytes.isSome) :
    (import_media convId message_map media_files).1 = media_files.length := by
  suffices key : ∀ (fs : List MediaCand) (idx : Nat),
      (∀ c ∈ fs, c.bytes.isSome) →
      (importMediaLoop convId message_map idx idx fs).1 = idx + fs.length by
    simpa [import_media] using key media_files 0 h
  intro fs
  induction fs with
  | nil => intro idx _; simp [importMediaLoop]
  | cons c rest ih =>
    intro idx hall
    have hc : c.bytes.isSome := hall c (by simp)
    match hb : c.bytes with
    | none => rw [hb] at hc; simp at hc
    | some data =>
      have := ih (idx + 1) (fun x hx => hall x (by simp [hx]))
      simp only [importMediaLoop, hb, this, List.length_cons]
      omega

/-- C2 (amended) witness: a readable member that matches no message still
advances `processed_media`. -/
theorem c2_processed_media_amended_witness :
    (∀ c ∈ ([⟨"a.jpg".data, some [1, 2]⟩, ⟨"b.png".data, some []⟩] : List MediaCand),
      c.bytes.isSome) ∧
    (import_media 1 []
      [⟨"a.jpg".data, some [1, 2]⟩, ⟨"b.png".data, some []⟩]).1 = 2 :=
  ⟨by decide, c2_processed_media_amended 1 []
    [⟨"a.jpg".data, some [1, 2]⟩, ⟨"b.png".data, some []⟩] (by decide)⟩

/-- C3 (counterexample): assembling a `total_chunks = 2` job whose chunk 1
object is missing fails, yet chunk 0 — which had already been read — has
been deleted from storage: `assemble_chunks` deletes each chunk
immediately after reading it, not after successful concatenation. -/
theorem c3_assemble_cleanup_counterexample :
    (assemble_chunks [(0, [7])] 2).1 = none ∧
    storeGet (assemble_chunks [(0, [7])] 2).2 0 = none := by decide

/-! Helper lemmas about the chunk store. -/

theorem storeGet_erase (st : ChunkStore) (k k' : Nat) :
    storeGet (storeErase st k) k' = if k' = k then none else storeGet st k' := by
  induction st with
  | nil => simp [storeErase, storeGet]
  | cons e rest ih =>
    by_cases hek : e.1 = k
    · have : storeErase (e :: rest) k = storeErase rest k := by
        simp [storeErase, List.filter_cons, hek]
      rw [this, ih]
      by_cases hk' : k' = k
      · simp [hk']
      · simp only [if_neg hk']
        have : e.1 ≠ k' := by rw [hek]; exact fun h => hk' h.symm
        simp [storeGet, List.find?_cons, this]
    · have : storeErase (e :: rest) k = e :: storeErase rest k := by
        simp [storeErase, List.filter_cons, hek]
      rw [this]
      by_cases hk'e : e.1 = k'
      · have hne : k' ≠ k := fun h => hek (hk'e.trans h)
        simp [storeGet, List.find?_cons, hk'e, hne]
      · simp only [storeGet, List.find?_cons]
        have h1 : (decide (e.1 = k')) = false := by simp [hk'e]
        rw [h1]
        simpa [storeGet] using ih

/-- Loop invariant for `assembleLoop`: when every chunk `i .. i+remaining-1`
is present, the loop returns the concatenation of those chunks appended to
the accumulator, deletes exactly those keys, and never resurrects an
absent key. -/
theorem assembleLoop_spec (remaining : Nat) : ∀ (i : Nat) (acc : Bytes) (st : ChunkStore),
    (∀ j, j < remaining → (storeGet st (i + j)).isSome) →
    (assembleLoop i remaining acc st).1 =
      some (acc ++ ((List.range remaining).map
        (fun j => (storeGet st (i + j)).getD [])).flatten) ∧
    (∀ j, j < remaining → storeGet (assembleLoop i remaining acc st).2 (i + j) = none) ∧
    (∀ k, storeGet st k = none → storeGet (assembleLoop i remaining acc st).2 k = none) := by
  induction remaining with
  | zero =>
    intro i acc st _
    refine ⟨by simp [assembleLoop], fun j hj => absurd hj (by omega), fun k hk => by
      simpa [assembleLoop] using hk⟩
  | succ n ih =>
    intro i acc st h
    have h0 : (storeGet st i).isSome := by simpa using h 0 (Nat.succ_pos n)
    obtain ⟨d, hd⟩ := Option.isSome_iff_exists.mp h0
    have hstep : assembleLoop i (n + 1) acc st =
        assembleLoop (i + 1) n (acc ++ d) (storeErase st i) := by
      simp [assembleLoop, hd]
    have hprem : ∀ j, j < n → (storeGet (storeErase st i) (i + 1 + j)).isSome := by
      intro j hj
      rw [storeGet_erase]
      have hne : i + 1 + j ≠ i := by omega
      rw [if_neg hne]
      have := h (j + 1) (by omega)
      simpa [show i + (j + 1) = i + 1 + j by omega] using this
    obtain ⟨ih1, ih2, ih3⟩ := ih (i + 1) (acc ++ d) (storeErase st i) hprem
    refine ⟨?_, ?_, ?_⟩
    · rw [hstep, ih1]
      congr 1
      rw [List.range_succ_eq_map]
      simp only [List.map_cons, List.flatten_cons, List.map_map, Nat.add_zero]
      rw [hd]
      simp only [Option.getD_some, List.append_assoc]
      have hmap : List.map
            (fun j => (storeGet (storeErase st i) (i + 1 + j)).getD [])
            (List.range n) =
          List.map ((fun j => (storeGet st (i + j)).getD []) ∘ Nat.succ)
            (List.range n) := by
        apply List.map_congr_left
        intro j _
        simp only [Function.comp_apply]
        rw [storeGet_erase]
        rw [if_neg (show i + 1 + j ≠ i by omega)]
        rw [show i + 1 + j = i + Nat.succ j by omega]
      rw [hmap]
    · intro j hj
      rw [hstep]
      match j, hj with
      | 0, _ =>
        apply ih3
        rw [storeGet_erase]
        simp
      | j' + 1, hj =>
        have := ih2 j' (by omega)
        simpa [show i + 1 + j' = i + (j' + 1) by omega] using this
    · intro k hk
      rw [hstep]
      apply ih3
      rw [storeGet_erase]
      split <;> simp [hk]

/-- C3 (amended): `assemble_chunks` deletes each chunk object immediately
after reading it (before the assembled object is uploaded), so a failure
partway leaves the already-read chunks deleted (see the counterexample);
when every chunk `0 .. total-1` is present, the assembled object is the
strict in-index-order concatenation of the chunks and every chunk object
has been deleted afterwards. -/
theorem c3_assemble_cleanup_amended (st : ChunkStore) (total : Nat)
    (h : ∀ i, i < total → (storeGet st i).isSome) :
    (assemble_chunks st total).1 =
      some (((List.range total).map (fun i => (storeGet st i).getD [])).flatten) ∧
    ∀ i, i < total → storeGet (assemble_chunks st total).2 i = none := by
  have := assembleLoop_spec total 0 [] st (by simpa using h)
  exact ⟨by simpa [assemble_chunks] using this.1,
    fun i hi => by simpa using this.2.1 i hi⟩

/-- C3 (amended) witness: with both chunks of a two-chunk job present,
assembly yields their in-order concatenation and both chunk objects are
deleted. -/
theorem c3_assemble_cleanup_amended_witness :
    (∀ i, i < 2 → (storeGet [(0, [7, 7]), (1, [8])] i).isSome) ∧
    ((assemble_chunks [(0, [7, 7]), (1, [8])] 2).1 =
      some (((List.range 2).map
        (fun i => (storeGet [(0, [7, 7]), (1, [8])] i).getD [])).flatten) ∧
    ∀ i, i < 2 → storeGet (assemble_chunks [(0, [7, 7]), (1, [8])] 2).2 i = none) :=
  ⟨by decide, c3_assemble_cleanup_amended [(0, [7, 7]), (1, [8])] 2 (by decide)⟩

/-! C4: transcript selection in the archive extractor. -/

/-- Decidable equality for `Except` results (not provided by core). -/
instance {e a : Type} [DecidableEq e] [DecidableEq a] :
    DecidableEq (Except e a) := fun x y =>
  match x, y with
  | .error u, .error v =>
    match decEq u v with
    | isTrue h => isTrue (by rw [h])
    | isFalse h => isFalse (fun hc => h (by injection hc))
  | .ok u, .ok v =>
    match decEq u v with
    | isTrue h => isTrue (by rw [h])
    | isFalse h => isFalse (fun hc => h (by injection hc))
  | .error _, .ok _ => isFalse (fun hc => Except.noConfusion hc)
  | .ok _, .error _ => isFalse (fun hc => Except.noConfusion hc)

/-- C4 (counterexample): for an archive whose members are
`a.txt, b.txt, m.jpg`, the extractor selects `b.txt` — the *last*
`.txt` member, not the first — as the transcript, and the other `.txt`
member `b.txt`…`a.txt` is not among the media candidates either. -/
theorem c4_transcript_selection_counterexample :
    processZipSelect ["a.txt".data, "b.txt".data, "m.jpg".data] =
      .ok ("b.txt".data, ["m.jpg".data]) ∧
    ("b.txt".data : List Char) ≠ "a.txt".data ∧
    ("a.txt".data : List Char) ∉ ["m.jpg".data] := by decide

/-- A `.txt`-suffixed, non-metadata member (transcript candidate). -/
def txtValid (n : List Char) : Bool :=
  endsWithCS ".txt".data n && !isPrefixCS "__MACOSX".data n

/-- A media candidate: not `.txt`-suffixed, not a directory entry, not
metadata. -/
def mediaValid (n : List Char) : Bool :=
  !endsWithCS ".txt".data n && !endsWithCS "/".data n &&
    !isPrefixCS "__MACOSX".data n

/-- Accumulator form of the classification loop. -/
theorem zipClassify_acc (names : List (List Char)) :
    ∀ (chat : Option (List Char)) (media : List (List Char)),
    zipClassify chat media names =
      ((names.filter txtValid).foldl (fun _ n => some n) chat,
        media ++ names.filter mediaValid) := by
  induction names with
  | nil => intro chat media; simp [zipClassify]
  | cons n rest ih =>
    intro chat media
    cases ht : endsWithCS ".txt".data n <;>
      cases hs : endsWithCS "/".data n <;>
        cases hm : isPrefixCS "__MACOSX".data n <;>
          simp [zipClassify, txtValid, mediaValid, ht, hs, hm, List.filter_cons, ih]

/-- C4 (amended): the extractor selects the *last* (not first) `.txt`,
non-metadata member as the transcript; members ending in `.txt` are never
media candidates; every non-`.txt`, non-directory, non-metadata member is
a media candidate, in member-list order; and an archive with no `.txt`
member is a hard failure (`ValueError`, which `_process_import` turns
into a failed job). -/
theorem c4_transcript_selection_amended (names : List (List Char)) :
    (∀ (pre : List (List Char)) (x : List Char),
      names.filter txtValid = pre ++ [x] → (zipClassify none [] names).1 = some x) ∧
    (zipClassify none [] names).2 = names.filter mediaValid ∧
    (processZipSelect names = .error "No chat file (.txt) found in ZIP".data ↔
      names.filter txtValid = []) := by
  have hacc := zipClassify_acc names none []
  refine ⟨?_, by simp [hacc], ?_⟩
  · intro pre x hpx
    rw [hacc]
    simp [hpx, List.foldl_append]
  · rw [processZipSelect, hacc]
    simp only [List.nil_append]
    constructor
    · intro h
      match hf : names.filter txtValid with
      | [] => rfl
      | y :: ys =>
        rw [hf] at h
        have hsome : ∀ (l : List (List Char)) (c : List Char),
            ∃ z, l.foldl (fun _ n => some n) (some c) = some z := by
          intro l
          induction l with
          | nil => intro c; exact ⟨c, rfl⟩
          | cons a l ih => intro c; simpa using ih a
        obtain ⟨z, hz⟩ := hsome ys y
        rw [List.foldl_cons, hz] at h
        simp at h
    · intro h
      rw [h]
      simp

/-! C5: input shapes of the message stream builder. -/

/-- C5 (counterexample): the byte-stream shape does not have the same
semantics as the string shape. For the content
`"[01.02.2023, 09:15:00] Alice: Hello\nworld"` delivered as one chunk,
the trailing line `world` still sits in the stream buffer at end of input
and is discarded (the end-of-stream handling feeds the buffer only
through `parse_line`, never as a continuation), so the stream shape
yields content `"Hello"` while the string shape yields
`"Hello\nworld"`. -/
theorem c5_stream_shape_counterexample :
    parse_stream ["[01.02.2023, 09:15:00] Alice: Hello\nworld".data] ≠
      parse_content "[01.02.2023, 09:15:00] Alice: Hello\nworld".data ∧
    (parse_stream ["[01.02.2023, 09:15:00] Alice: Hello\nworld".data]).map
      (fun m => m.content) = ["Hello".data] ∧
    (parse_content "[01.02.2023, 09:15:00] Alice: Hello\nworld".data).map
      (fun m => m.content) = ["Hello\nworld".data] := by decide

theorem clean_unicode_append (a b : List Char) :
    clean_unicode (a ++ b) = clean_unicode a ++ clean_unicode b :=
  List.filter_append _ _

theorem clean_unicode_nl : clean_unicode ['\n'] = ['\n'] := by decide

theorem dropRightWhile_append_true {p : Char → Bool} {c : Char} (hc : p c = true)
    (l : List Char) : dropRightWhile p (l ++ [c]) = dropRightWhile p l := by
  simp [dropRightWhile, List.dropWhile_cons, hc]

/-- Appending a whitespace character does not change `str.strip()`. -/
theorem pyStrip_append_ws {c : Char} (hc : pyIsSpace c = true) (l : List Char) :
    pyStrip (l ++ [c]) = pyStrip l := by
  unfold pyStrip
  rw [List.dropWhile_append]
  split
  · next hemp =>
    have : l.dropWhile pyIsSpace = [] := by
      cases h : l.dropWhile pyIsSpace with
      | nil => rfl
      | cons x xs => rw [h] at hemp; simp at hemp
    rw [this]
    simp [List.dropWhile, hc, dropRightWhile]
  · exact dropRightWhile_append_true hc _

theorem normLine_append_nl (l : List Char) :
    pyStrip (clean_unicode (l ++ ['\n'])) = pyStrip (clean_unicode l) := by
  rw [clean_unicode_append, clean_unicode_nl, pyStrip_append_ws (by decide)]

/-- A trailing newline does not change how a line parses. -/
theorem parse_line_append_nl (l : List Char) :
    parse_line (l ++ ['\n']) = parse_line l := by
  unfold parse_line
  rw [normLine_append_nl]

/-- A trailing newline does not change continuation-line handling either. -/
theorem feedLine_append_nl (st : BuilderState) (l : List Char) :
    feedLine st (l ++ ['\n']) = feedLine st l := by
  unfold feedLine
  rw [parse_line_append_nl, pyStrip_append_ws (by decide)]
  unfold contText
  rw [normLine_append_nl]

/-- An empty line leaves the builder state unchanged. -/
theorem feedLine_nil (st : BuilderState) : feedLine st [] = st := by
  have h1 : parse_line [] = none := by decide
  have h2 : pyStrip [] = [] := by decide
  unfold feedLine
  rw [h1, h2]
  match st with
  | (e, some cur) => simp
  | (e, none) => simp

/-- C5 (amended): the string shape (`parse_content`) and the line-oriented
file shape (`parse_file`) have identical semantics on every content; the
byte-stream shape differs (see the counterexample: continuation lines fed
from completed stream chunks are whitespace-stripped but not
invisible-character-stripped, and a trailing incomplete line that is not
a message start is discarded rather than appended as a continuation). -/
theorem c5_file_string_equiv (s : List Char) : parse_file s = parse_content s := by
  unfold parse_file parse_content parseLines
  suffices key : ∀ (ls : List (List Char)) (st : BuilderState),
      (fileLines.joinLines ls).foldl feedLine st = ls.foldl feedLine st by
    rw [show fileLines s = fileLines.joinLines (splitOnNl s) from rfl, key]
  intro ls
  induction ls with
  | nil => intro st; rfl
  | cons l rest ih =>
    intro st
    match rest with
    | [] =>
      show (if l.isEmpty then ([] : List (List Char)) else [l]).foldl feedLine st =
        [l].foldl feedLine st
      cases hl : l with
      | nil => simp [feedLine_nil]
      | cons c cs => simp
    | r :: rest' =>
      show ((l ++ ['\n']) :: fileLines.joinLines (r :: rest')).foldl feedLine st =
        (l :: r :: rest').foldl feedLine st
      rw [List.foldl_cons, List.foldl_cons, feedLine_append_nl, ih]

/-! C6: N message starts with interleaved continuation lines. -/

/-- Join content segments with newline characters. -/
def joinNl : List (List Char) → List Char
  | [] => []
  | [x] => x
  | x :: xs => x ++ '\n' :: joinNl xs

/-- The contribution of a non-start line to the current message's content:
its cleaned, stripped text, provided the line is non-blank and that text
is nonempty. -/
def contOpt (l : List Char) : Option (List Char) :=
  if !(pyStrip l).isEmpty && !(contText l).isEmpty then some (contText l) else none

/-- Folding one continuation line into the current message. -/
def contStep (c : ParsedMessage) (l : List Char) : ParsedMessage :=
  if !(pyStrip l).isEmpty && !(contText l).isEmpty then
    { c with content := c.content ++ '\n' :: contText l }
  else c

/-- The message a block (start line plus following non-start lines) yields:
the start line's parse with the continuation texts appended, joined by
newlines. -/
def emitBlock (b : List Char × List (List Char)) : ParsedMessage :=
  let m := (parse_line b.1).getD default
  { m with content := joinNl (m.content :: b.2.filterMap contOpt) }

/-- The input lines of a list of blocks. -/
def blockLines (blocks : List (List Char × List (List Char))) : List (List Char) :=
  (blocks.map (fun b => b.1 :: b.2)).flatten

theorem feedLine_none_none {l : List Char} (h : parse_line l = none)
    (e : List ParsedMessage) : feedLine (e, none) l = (e, none) := by
  simp [feedLine, h]

theorem feedLine_none_some {l : List Char} (h : parse_line l = none)
    (e : List ParsedMessage) (c : ParsedMessage) :
    feedLine (e, some c) l = (e, some (contStep c l)) := by
  simp only [feedLine, h]
  unfold contStep
  split <;> rfl

theorem foldl_feedLine_none (pre : List (List Char)) :
    ∀ (e : List ParsedMessage), (∀ l ∈ pre, parse_line l = none) →
    List.foldl feedLine (e, none) pre = (e, none) := by
  induction pre with
  | nil => intro e _; rfl
  | cons l ls ih =>
    intro e h
    rw [List.foldl_cons, feedLine_none_none (h l (by simp)) e]
    exact ih e (fun x hx => h x (by simp [hx]))

theorem foldl_feedLine_conts (conts : List (List Char)) :
    ∀ (e : List ParsedMessage) (c : ParsedMessage),
    (∀ l ∈ conts, parse_line l = none) →
    List.foldl feedLine (e, some c) conts = (e, some (conts.foldl contStep c)) := by
  induction conts with
  | nil => intro e c _; rfl
  | cons l ls ih =>
    intro e c h
    rw [List.foldl_cons, feedLine_none_some (h l (by simp)) e c, List.foldl_cons]
    exact ih e (contStep c l) (fun x hx => h x (by simp [hx]))

theorem joinNl_glue (a b : List Char) (rest : List (List Char)) :
    joinNl ((a ++ '\n' :: b) :: rest) = a ++ '\n' :: joinNl (b :: rest) := by
  cases rest with
  | nil => simp [joinNl]
  | cons r rs => simp [joinNl, List.append_assoc]

theorem joinNl_cons₂ (x y : List Char) (ys : List (List Char)) :
    joinNl (x :: y :: ys) = x ++ '\n' :: joinNl (y :: ys) := rfl

theorem foldl_contStep_join (conts : List (List Char)) :
    ∀ (c : ParsedMessage),
    conts.foldl contStep c =
      { c with content := joinNl (c.content :: conts.filterMap contOpt) } := by
  induction conts with
  | nil => intro c; simp [joinNl]
  | cons l ls ih =>
    intro c
    rw [List.foldl_cons]
    by_cases hcond : (!(pyStrip l).isEmpty && !(contText l).isEmpty) = true
    · have hstep : contStep c l =
          { c with content := c.content ++ '\n' :: contText l } := by
        unfold contStep; rw [if_pos hcond]
      have hopt : contOpt l = some (contText l) := by
        unfold contOpt; rw [if_pos hcond]
      rw [hstep, ih]
      simp only [List.filterMap_cons, hopt, joinNl_glue, joinNl_cons₂]
    · have hstep : contStep c l = c := by unfold contStep; rw [if_neg hcond]
      have hopt : contOpt l = none := by unfold contOpt; rw [if_neg hcond]
      rw [hstep, ih]
      simp only [List.filterMap_cons, hopt]

theorem foldl_feedLine_blocks (blocks : List (List Char × List (List Char))) :
    ∀ (conts : List (List Char)) (e : List ParsedMessage) (c : ParsedMessage),
    (∀ l ∈ conts, parse_line l = none) →
    (∀ b ∈ blocks, (parse_line b.1).isSome) →
    (∀ b ∈ blocks, ∀ l ∈ b.2, parse_line l = none) →
    finishBuilder (List.foldl feedLine (e, some c) (conts ++ blockLines blocks)) =
      e ++ conts.foldl contStep c :: blocks.map emitBlock := by
  induction blocks with
  | nil =>
    intro conts e c hconts _ _
    rw [blockLines, List.map_nil, List.flatten_nil, List.append_nil,
      foldl_feedLine_conts conts e c hconts]
    rfl
  | cons b bs ih =>
    intro conts e c hconts hstart hcont
    obtain ⟨m, hm⟩ := Option.isSome_iff_exists.mp (hstart b (by simp))
    have hlines : blockLines (b :: bs) = b.1 :: (b.2 ++ blockLines bs) := by
      simp [blockLines]
    rw [hlines, List.foldl_append, foldl_feedLine_conts conts e c hconts,
      List.foldl_cons]
    have hfeed : feedLine (e, some (conts.foldl contStep c)) b.1 =
        (e ++ [conts.foldl contStep c], some m) := by
      simp [feedLine, hm]
    rw [hfeed,
      ih b.2 (e ++ [conts.foldl contStep c]) m
        (fun l hl => hcont b (by simp) l hl)
        (fun x hx => hstart x (by simp [hx]))
        (fun x hx => hcont x (by simp [hx]))]
    have hemit : b.2.foldl contStep m = emitBlock b := by
      rw [foldl_contStep_join]
      simp [emitBlock, hm]
    rw [hemit]
    simp

/-- C6: feeding the message stream builder a transcript whose lines split
into (a) leading non-start lines and (b) `N` blocks, each one recognized
start line followed by its non-start lines, yields exactly `N`
`ParsedMessage` records; each record is its start line's parse with its
content extended to the start line's body followed by the (stripped,
invisible-character-cleaned, nonempty) continuation texts in input order,
joined by newline characters. -/
theorem c6_stream_builder_blocks (s : List Char) (pre : List (List Char))
    (blocks : List (List Char × List (List Char)))
    (hsplit : splitOnNl s = pre ++ blockLines blocks)
    (hpre : ∀ l ∈ pre, parse_line l = none)
    (hstart : ∀ b ∈ blocks, (parse_line b.1).isSome)
    (hcont : ∀ b ∈ blocks, ∀ l ∈ b.2, parse_line l = none) :
    parse_content s = blocks.map emitBlock := by
  unfold parse_content parseLines
  rw [hsplit, List.foldl_append, foldl_feedLine_none pre [] hpre]
  match blocks, hstart, hcont with
  | [], _, _ => rfl
  | b :: bs, hstart, hcont =>
    obtain ⟨m, hm⟩ := Option.isSome_iff_exists.mp (hstart b (by simp))
    have hlines : blockLines (b :: bs) = b.1 :: (b.2 ++ blockLines bs) := by
      simp [blockLines]
    have hfeed : feedLine ([], none) b.1 = ([], some m) := by
      simp [feedLine, hm]
    rw [hlines, List.foldl_cons, hfeed,
      foldl_feedLine_blocks bs b.2 [] m
        (fun l hl => hcont b (by simp) l hl)
        (fun x hx => hstart x (by simp [hx]))
        (fun x hx => hcont x (by simp [hx]))]
    have hemit : b.2.foldl contStep m = emitBlock b := by
      rw [foldl_contStep_join]
      simp [emitBlock, hm]
    rw [hemit]
    rfl

/-- C6 witness: the concrete scenario — the start line
`"[01.02.2023, 09:15:00] Alice: Hello"` followed by the continuation line
`"world"` yields one `ParsedMessage` with sender `Alice`, content
`"Hello\nworld"`, type `text`, no media. -/
theorem c6_stream_builder_blocks_witness :
    parse_content "[01.02.2023, 09:15:00] Alice: Hello\nworld".data =
      [{ timestamp := ⟨2023, 2, 1, 9, 15, 0⟩, sender := "Alice".data,
         content := "Hello\nworld".data, message_type := "text".data,
         has_media := false, media_filename := none, is_system := false }] :=
  (c6_stream_builder_blocks "[01.02.2023, 09:15:00] Alice: Hello\nworld".data
    [] [("[01.02.2023, 09:15:00] Alice: Hello".data, ["world".data])]
    (by decide) (by decide) (by decide) (by decide)).trans (by decide)

/-- C4 (amended) witness: for members `a.txt, b.txt, m.jpg` the transcript
is the last `.txt` member `b.txt` and the media candidates are exactly
the `mediaValid` members. -/
theorem c4_transcript_selection_amended_witness :
    (zipClassify none [] ["a.txt".data, "b.txt".data, "m.jpg".data]).1 =
      some "b.txt".data ∧
    (zipClassify none [] ["a.txt".data, "b.txt".data, "m.jpg".data]).2 =
      ["a.txt".data, "b.txt".data, "m.jpg".data].filter mediaValid :=
  ⟨(c4_transcript_selection_amended _).1 ["a.txt".data] "b.txt".data (by decide),
   (c4_transcript_selection_amended _).2.1⟩

/-- C7: participant color assignment is a pure function of the set of
distinct non-system sender names — each sender gets the palette entry at
(its rank in the lexicographically sorted sender list) mod the palette
length, so two message lists with the same sender set (in any arrival
order, with any multiplicities) derive the same name-to-color mapping. -/
theorem c7_color_assignment (m1 m2 : List ParsedMessage)
    (h12 : ∀ s ∈ senderList m1, s ∈ senderList m2)
    (h21 : ∀ s ∈ senderList m2, s ∈ senderList m1) :
    colorAssignment m1 = colorAssignment m2 := by
  have hproj : ∀ msgs : List ParsedMessage, colorAssignment msgs =
      (sortedSenders msgs).enum.map (fun is => (is.2, get_color is.1)) := by
    intro msgs
    unfold colorAssignment createParticipants
    rw [List.map_map]
    rfl
  rw [hproj, hproj]
  suffices h : sortedSenders m1 = sortedSenders m2 by rw [h]
  unfold sortedSenders
  have hmem : ∀ s, s ∈ (senderList m1).dedup ↔ s ∈ (senderList m2).dedup := by
    intro s
    rw [List.mem_dedup, List.mem_dedup]
    exact ⟨fun h => h12 s h, fun h => h21 s h⟩
  have hperm : (senderList m1).dedup.Perm (senderList m2).dedup :=
    (List.perm_ext_iff_of_nodup (List.nodup_dedup _) (List.nodup_dedup _)).mpr hmem
  exact List.eq_of_perm_of_sorted
    ((List.perm_insertionSort _ _).trans
      (hperm.trans (List.perm_insertionSort _ _).symm))
    (List.sorted_insertionSort _ _) (List.sorted_insertionSort _ _)

/-- C7 witness: two message lists with the same sender set `{Alice, Bob}`
but different arrival orders and multiplicities get the same
name-to-color mapping. -/
theorem c7_color_assignment_witness :
    (∀ s ∈ senderList
        [{ timestamp := ⟨2023, 1, 1, 0, 0, 0⟩, sender := "Alice".data,
           content := "hi".data },
         { timestamp := ⟨2023, 1, 1, 0, 1, 0⟩, sender := "Bob".data,
           content := "yo".data }],
      s ∈ senderList
        [{ timestamp := ⟨2023, 1, 1, 0, 1, 0⟩, sender := "Bob".data,
           content := "yo".data },
         { timestamp := ⟨2023, 1, 1, 0, 2, 0⟩, sender := "Alice".data,
           content := "hm".data },
         { timestamp := ⟨2023, 1, 1, 0, 0, 0⟩, sender := "Alice".data,
           content := "hi".data }]) ∧
    (∀ s ∈ senderList
        [{ timestamp := ⟨2023, 1, 1, 0, 1, 0⟩, sender := "Bob".data,
           content := "yo".data },
         { timestamp := ⟨2023, 1, 1, 0, 2, 0⟩, sender := "Alice".data,
           content := "hm".data },
         { timestamp := ⟨2023, 1, 1, 0, 0, 0⟩, sender := "Alice".data,
           content := "hi".data }],
      s ∈ senderList
        [{ timestamp := ⟨2023, 1, 1, 0, 0, 0⟩, sender := "Alice".data,
           content := "hi".data },
         { timestamp := ⟨2023, 1, 1, 0, 1, 0⟩, sender := "Bob".data,
           content := "yo".data }]) ∧
    colorAssignment
        [{ timestamp := ⟨2023, 1, 1, 0, 0, 0⟩, sender := "Alice".data,
           content := "hi".data },
         { timestamp := ⟨2023, 1, 1, 0, 1, 0⟩, sender := "Bob".data,
           content := "yo".data }] =
      colorAssignment
        [{ timestamp := ⟨2023, 1, 1, 0, 1, 0⟩, sender := "Bob".data,
           content := "yo".data },
         { timestamp := ⟨2023, 1, 1, 0, 2, 0⟩, sender := "Alice".data,
           content := "hm".data },
         { timestamp := ⟨2023, 1, 1, 0, 0, 0⟩, sender := "Alice".data,
           content := "hi".data }] :=
  ⟨by decide, by decide, c7_color_assignment _ _ (by decide) (by decide)⟩

/-- C8: the timestamp resolver is total — when none of the eight format
templates and not even the permissive fallback matches, `parse_timestamp`
returns `none` instead of raising — and a line matching the
timestamp+sender+colon pattern whose timestamp fails to parse is *not* a
new message: `parse_line` returns `none` for it. -/
theorem c8_timestamp_totality :
    (∀ ts : List Char,
      (∀ f ∈ timestampFormats,
        f (pyStrip (stripBrackets (clean_unicode ts))) = none) →
      fallbackParse (pyStrip (stripBrackets (clean_unicode ts))) = none →
      parse_timestamp ts = none) ∧
    (∀ line ts sender content : List Char,
      messageMatch (pyStrip (clean_unicode line)) = some (ts, sender, content) →
      parse_timestamp ts = none →
      parse_line line = none) := by
  constructor
  · intro ts hfmts hfb
    have hfind : timestampFormats.findSome?
        (fun f => f (pyStrip (stripBrackets (clean_unicode ts)))) = none :=
      List.findSome?_eq_none_iff.mpr hfmts
    simp only [parse_timestamp, hfind]
    exact hfb
  · intro line ts sender content hm hts
    have hne : (pyStrip (clean_unicode line)).isEmpty = false := by
      cases hl : pyStrip (clean_unicode line) with
      | nil => rw [hl] at hm; simp [messageMatch, bracketSplit] at hm
      | cons a as => rfl
    unfold parse_line
    simp only [hne, Bool.false_eq_true, if_false, hm, hts]

/-- C8 witness: `"garbage"` matches no timestamp format, and the line
`"[garbage] Bob: hi"` — which does match the timestamp+sender+colon
pattern — is classified as not a message. -/
theorem c8_timestamp_totality_witness :
    parse_timestamp "garbage".data = none ∧
    parse_line "[garbage] Bob: hi".data = none :=
  ⟨c8_timestamp_totality.1 "garbage".data (by decide) (by decide),
   c8_timestamp_totality.2 "[garbage] Bob: hi".data "garbage".data "Bob".data
     "hi".data (by decide)
     (c8_timestamp_totality.1 "garbage".data (by decide) (by decide))⟩

/-- C10: for a line matched as timestamp+sender+colon+body with a parsable
timestamp, if the body contains any of the fixed system-indicator strings
as a case-insensitive substring — even inside ordinary user text — the
resulting `ParsedMessage` has `is_system = true` and
`message_type = "system"`, overriding whatever type media detection
assigned (whose `has_media`/`media_filename` results are kept). -/
theorem c10_system_override (line ts sender content : List Char) (t : PyDateTime)
    (hm : messageMatch (pyStrip (clean_unicode line)) = some (ts, sender, content))
    (hts : parse_timestamp ts = some t)
    (hsys : is_system_message content sender = true) :
    parse_line line = some
      { timestamp := t, sender := sender, content := content,
        message_type := "system".data,
        has_media := (detect_media_type content).2.1,
        media_filename := (detect_media_type content).2.2,
        is_system := true } := by
  have hne : (pyStrip (clean_unicode line)).isEmpty = false := by
    cases hl : pyStrip (clean_unicode line) with
    | nil => rw [hl] at hm; simp [messageMatch, bracketSplit] at hm
    | cons a as => rfl
  unfold parse_line
  simp only [hne, Bool.false_eq_true, if_false, hm, hts, hsys, if_pos]

/-- C10 witness: the body `"I left my keys"` is ordinary user text, yet the
indicator `"left"` occurs in it, so the message is classified as a system
message. -/
theorem c10_system_override_witness :
    parse_line "[01.02.2023, 09:15:00] Alice: I left my keys".data = some
      { timestamp := ⟨2023, 2, 1, 9, 15, 0⟩, sender := "Alice".data,
        content := "I left my keys".data, message_type := "system".data,
        has_media := false, media_filename := none, is_system := true } :=
  (c10_system_override "[01.02.2023, 09:15:00] Alice: I left my keys".data
    "01.02.2023, 09:15:00".data "Alice".data "I left my keys".data
    ⟨2023, 2, 1, 9, 15, 0⟩ (by decide) (by decide) (by decide)).trans (by decide)

end WhatsappArchive
